import Mathlib

/-!
Verification of the `kentik/golog` logging pipeline.

Shallow embedding of the `logger` package: the bounded pool of reusable
message buffers (`freeMessages` / `messages` channels), the producer-side
enqueue path (`Logger.log` / `queueMsg`), the formatter (`asString` /
`asJSON` / `trimNewLines` / `setFormat`), the single-consumer delivery loop
(`logWriter` with `writeTee` / `writeStd` / `writeSyslog` /
`writeCustomSocket` / `freeMsg`) and the associated process-wide counters.

Go `uint64` counters are modelled as `Nat` reduced modulo `2 ^ 64` at each
increment (`atomic.AddUint64` wraps).  Channels are modelled as FIFO lists
with their capacity checked where the Go code performs a non-blocking
`select`.  External collaborators (the syslog facility, sockets,
`time.Time` formatting, `runtime.Caller`, `fmt.Sprintf`) are modelled at
their interface boundary as simple total functions, as noted at each
definition.
-/

namespace Golog

/-- Go `NumMessages`: the fixed pool capacity (`10 * 1024`). -/
def NumMessages : Nat := 10 * 1024

/-- Go `reclaimThreshold`: capacity above which a released buffer is reallocated. -/
def reclaimThreshold : Nat := 5120

/-- Modulus of Go `uint64` arithmetic. -/
def U64 : Nat := 2 ^ 64

/-- Go `atomic.AddUint64(&x, 1)`: increment with `uint64` wrap-around. -/
def inc64 (x : Nat) : Nat := (x + 1) % U64

/-- Go `type Level int`. -/
abbrev Level := Int

namespace Levels

/-- Go `Levels.Access = -1`. -/
def Access : Level := -1

/-- Go `Levels.Off = 0`. -/
def Off : Level := 0

/-- Go `Levels.Panic = 1`. -/
def Panic : Level := 1

/-- Go `Levels.Error = 2`. -/
def Error : Level := 2

/-- Go `Levels.Warn = 3`. -/
def Warn : Level := 3

/-- Go `Levels.Info = 4`. -/
def Info : Level := 4

/-- Go `Levels.Debug = 5`. -/
def Debug : Level := 5

end Levels

/-- Go `levelMap`: pretty-printed name of each level; a Go map lookup yields the
zero value `""` for a level outside the seven declared constants. -/
def levelMap (l : Level) : String :=
  if l = Levels.Access then "Access"
  else if l = Levels.Off then "Off"
  else if l = Levels.Panic then "Panic"
  else if l = Levels.Error then "Error"
  else if l = Levels.Warn then "Warn"
  else if l = Levels.Info then "Info"
  else if l = Levels.Debug then "Debug"
  else ""

/-- Go `levelSysLog`: mapping of levels to syslog priority codes
(`LOG_ERR = 3`, `LOG_WARNING = 4`, `LOG_INFO = 6`, `LOG_DEBUG = 7`);
a Go map lookup yields the zero value `0` outside the declared keys. -/
def levelSysLog (l : Level) : Nat :=
  if l = Levels.Access then 6
  else if l = Levels.Off then 7
  else if l = Levels.Panic then 3
  else if l = Levels.Error then 3
  else if l = Levels.Warn then 4
  else if l = Levels.Info then 6
  else if l = Levels.Debug then 7
  else 0

/-- Go `levelMapFmt`: the `"[Level] "` byte prefix written by `asString`;
empty (the map's zero value) outside the seven declared levels. -/
def levelMapFmt (l : Level) : List Char :=
  if levelMap l = "" then [] else ("[" ++ levelMap l ++ "] ").toList

/-- Go `logCaller`: call-site captured by `runtime.Caller` (fields `File`, `Line`). -/
structure logCaller where
  file : String
  line : Nat
deriving Repr, DecidableEq

/-- Go `logCaller.String()`: `fmt.Sprintf("%s:%d", lc.File, lc.Line)`. -/
def logCaller.callerString (lc : logCaller) : String :=
  lc.file ++ ":" ++ toString lc.line

/-- Go `logEntry`: all parameters handed to `queueMsg`.  The Go argument list
`fmtV []interface{}` is modelled as a list of already-stringified arguments
(only their verbatim transport matters to the claims). -/
structure logEntry where
  lvl : Level
  pre : String
  fm : String
  fmtV : List String
  lc : logCaller
  tee : Bool
deriving Repr, DecidableEq

/-- Model of the external `fmt.Sprintf` collaborator: substitutes each
`%s` verb by the next argument and copies every other character. -/
def sprintfGo : List Char → List String → List Char
  | [], _ => []
  | '%' :: 's' :: rest, a :: as => a.toList ++ sprintfGo rest as
  | c :: rest, as => c :: sprintfGo rest as

/-- Go `fmt.Sprintf` on `String`. -/
def sprintfS (f : String) (v : List String) : String :=
  String.mk (sprintfGo f.toList v)

/-- Go `logMessage`: one pooled buffer.  `data` is the `bytes.Buffer` content,
`cap` its backing-storage capacity (`Buffer.Cap()`), `level` the resolved
syslog code, `time` the capture tick (`time.Now()` modelled as a `Nat`
clock) and `le` the owning entry reference. -/
structure logMessage where
  data : List Char
  bcap : Nat
  level : Nat
  time : Nat
  le : logEntry
deriving Repr, DecidableEq

/-- The zero `logMessage` of the `msgArr` array allocated by `setup`. -/
def emptyMsg : logMessage :=
  { data := [], bcap := 0, level := 0, time := 0
    le := { lvl := 0, pre := "", fm := "", fmtV := [], lc := ⟨"", 0⟩, tee := false } }

/-- The render mode installed in the global `format` variable by `setFormat`. -/
inductive FmtMode where
  | text
  | json
deriving Repr, DecidableEq

/-- Errors returned by the pool operations. -/
inductive PoolErr where
  | logFullBuf
  | freeOverflow
deriving Repr, DecidableEq

/-- The process-wide mutable state of the `logger` package: the two buffer
channels, the three counters, the sink configuration, the optional tee
conduit (capacity and queued strings), the delivered sink output, and the
render mode chosen at startup.  `held` are the in-flight buffers owned by a
producer mid-`queueMsg` or by the delivery loop mid-delivery (used by the
small-step pool model).  `now` is the model clock read by `render`. -/
structure LogSys where
  free : List logMessage
  pending : List logMessage
  held : List logMessage
  logCount : Nat
  dropCount : Nat
  errCount : Nat
  stdhdl : Bool
  customSock : Bool
  logTee : Option (Nat × List String)
  sinkOut : List (List Char)
  logNameString : String
  format : FmtMode
  now : Nat
deriving Repr, DecidableEq

/-- The buffer-storage transform performed by `freeMsg` before the buffer
re-enters the free set: if `Buffer.Cap() > reclaimThreshold` the storage is
reallocated (`bytes.NewBuffer(make([]byte, 0, reclaimThreshold))`),
otherwise `Reset()` clears the content in place and keeps the capacity. -/
def freeMsgClean (msg : logMessage) : logMessage :=
  if reclaimThreshold < msg.bcap then
    { msg with data := [], bcap := reclaimThreshold }
  else
    { msg with data := [] }

/-- Go `freeMsg`: release a buffer back to the `freeMessages` channel.  The
non-blocking `select` fails when the channel already holds `NumMessages`
buffers; then the error counter is incremented, `ErrFreeMessageOverflow` is
returned, and the buffer does not re-enter the free set. -/
def freeMsg (s : LogSys) (msg : logMessage) : LogSys × Option PoolErr :=
  let msg := freeMsgClean msg
  if s.free.length < NumMessages then
    ({ s with free := s.free ++ [msg] }, none)
  else
    ({ s with errCount := inc64 s.errCount }, some .freeOverflow)

/-- Model of the external Go `time.Time.Format(STDOUT_FORMAT)` collaborator
on the model clock. -/
def tsFormat (t : Nat) : List Char := (toString t ++ " ").toList

/-- The byte comparison `bs[li-cnt] == '\n'` of the `trimNewLines` loop. -/
def isNL (c : Char) : Bool := c = '\n'

/-- The number of `'\n'` bytes at the end of a buffer: the count computed by
the scanning loop of `trimNewLines` (`for ; cnt < l && bs[li-cnt] == '\n'; cnt++`). -/
def trailingNLCount (bs : List Char) : Nat :=
  (bs.reverse.takeWhile isNL).length

/-- Go `trimNewLines`: trims any/all `'\n'` from the end of the buffer
(`lm.Truncate(l - cnt)`). -/
def trimNewLines (bs : List Char) : List Char :=
  bs.take (bs.length - trailingNLCount bs)

/-- The number of `'\n'` bytes at the front of a buffer (used to state that
leading terminators are preserved). -/
def leadingNLCount (bs : List Char) : Nat :=
  (bs.takeWhile isNL).length

/-- Go `asString`: the text-mode formatter.  When `addLeader` holds (direct
stream sink) it first writes `time.Format(STDOUT_FORMAT)` and the log name;
then `"[Level] "`, the prefix, `"<file: line> "`, and the
`fmt.Sprintf`-rendered body. -/
def asStringBytes (addLeader : Bool) (logNameString : String) (t : Nat)
    (le : logEntry) : List Char :=
  (if addLeader then tsFormat t ++ logNameString.toList else [])
    ++ levelMapFmt le.lvl
    ++ le.pre.toList
    ++ ("<" ++ le.lc.file ++ ": " ++ toString le.lc.line ++ "> ").toList
    ++ sprintfGo le.fm.toList le.fmtV

/-- Go `strings.Trim(pre, " ")`: surrounding spaces removed. -/
def trimSpaces (x : String) : String :=
  String.mk (((x.toList.dropWhile (fun c => c = ' ')).reverse.dropWhile
    (fun c => c = ' ')).reverse)

/-- Go `logEntryStructured`: the structured (JSON) record with tags
`time`, `level`, `prefix`, `message`, `caller`. -/
structure logEntryStructured where
  time : String
  level : String
  pre : String
  message : String
  caller : String
deriving Repr, DecidableEq

/-- A JSON value (only the string shape is needed by the record). -/
inductive JVal where
  | jstr : String → JVal
deriving Repr, DecidableEq

/-- A JSON object: ordered field list. -/
abbrev JObj := List (String × JVal)

/-- Model of the external `time.Time` JSON serialization on the model clock. -/
def tsJSON (t : Nat) : String := toString t

/-- Go `asJSON`: build the structured record from a message's capture time and
owning entry: level name lower-cased, prefix with surrounding spaces
trimmed, `fmt.Sprintf`-rendered message, `logCaller.String()` call-site. -/
def asJSONRec (t : Nat) (le : logEntry) : JObj :=
  [("time", .jstr (tsJSON t)),
   ("level", .jstr (levelMap le.lvl).toLower),
   ("prefix", .jstr (trimSpaces le.pre)),
   ("message", .jstr (sprintfS le.fm le.fmtV)),
   ("caller", .jstr le.lc.callerString)]

/-- Parsing a structured record back into `logEntryStructured` (the
`json.Decoder` side: each tagged field must be present as a string). -/
def decodeLES (o : JObj) : Option logEntryStructured :=
  match o.lookup "time", o.lookup "level", o.lookup "prefix",
      o.lookup "message", o.lookup "caller" with
  | some (.jstr t), some (.jstr l), some (.jstr p), some (.jstr m),
      some (.jstr c) => some ⟨t, l, p, m, c⟩
  | _, _, _, _, _ => none

/-- Partial model of `encoding/json` string escaping (enough to serialize
the record; the claims do not depend on the exact escape table). -/
def escapeJSONChar (c : Char) : List Char :=
  if c = '"' then ['\\', '"']
  else if c = '\\' then ['\\', '\\']
  else if c = '\n' then ['\\', 'n']
  else [c]

/-- Serialize a JSON string. -/
def jsonQuote (x : String) : List Char :=
  '"' :: (x.toList.flatMap escapeJSONChar) ++ ['"']

/-- Serialize one object field. -/
def jsonField : String × JVal → List Char
  | (k, .jstr v) => jsonQuote k ++ [':'] ++ jsonQuote v

/-- Serialize an object; `json.Encoder.Encode` appends a trailing `'\n'`. -/
def jsonEncodeBytes (o : JObj) : List Char :=
  "\x7b".toList ++ ((o.map jsonField).intersperse [',']).flatten ++ "\x7d\n".toList

/-- Go `render`: capture the timestamp, resolve the syslog level code, attach
the entry, run the installed formatter (`asString` or `asJSON`, with the
leader added only when a direct stream sink is configured), then
`trimNewLines`.  Formatting into a `bytes.Buffer` cannot fail in the model,
so `render` is total (the `queueMsg` render-error branch is dead here).
The buffer's backing capacity grows to hold the untrimmed content. -/
def render (s : LogSys) (msg : logMessage) (le : logEntry) : logMessage :=
  let content :=
    match s.format with
    | .text => asStringBytes s.stdhdl s.logNameString s.now le
    | .json => jsonEncodeBytes (asJSONRec s.now le)
  { msg with
    time := s.now
    level := levelSysLog le.lvl
    le := le
    data := trimNewLines content
    bcap := max msg.bcap content.length }

/-- Go `queueMsg`: the post-policy enqueue step.  Increments the attempt
counter first; acquires a free buffer with a non-blocking `select`
(incrementing the drop counter and returning when none is available);
renders; pushes onto the pending channel with a non-blocking `select`
(incrementing the error counter and returning `ErrLogFullBuf` when full). -/
def queueMsg (s : LogSys) (le : logEntry) : LogSys × Option PoolErr :=
  let s := { s with logCount := inc64 s.logCount }
  match s.free with
  | [] => ({ s with dropCount := inc64 s.dropCount }, none)
  | msg :: fr =>
    let s := { s with free := fr }
    let msg := render s msg le
    if s.pending.length < NumMessages then
      ({ s with pending := s.pending ++ [msg] }, none)
    else
      ({ s with errCount := inc64 s.errCount }, some .logFullBuf)

/-- Go `Logger`: per-logger threshold and access sampling counters
(`sample`, `sampleCount` are `uint64`). -/
structure Logger where
  level : Level
  sample : Nat
  sampleCount : Nat
deriving Repr, DecidableEq

/-- Go `New`: fresh logger at the given threshold with the default access
sampling stride `sample = 1`. -/
def New (level : Level) : Logger :=
  { level := level, sample := 1, sampleCount := 0 }

/-- Go `OffLogger = New(Levels.Off)`: the dummy no-op logger. -/
def OffLogger : Logger := New Levels.Off

/-- Go `Logger.log`: the producer-facing submit operation.  A `nil` receiver
returns silently; an access-level call increments the sampling counter and
applies the sampling stride; any other level is compared against the
threshold; an accepted call builds the entry (call-site from
`runtime.Caller`, modelled as the `lc` argument) and hands it to
`queueMsg`.  Returns the updated logger (its `sampleCount` may change) and
state. -/
def Logger.log (l? : Option Logger) (level : Level) (pre fm : String)
    (v : List String) (lc : logCaller) (tee : Bool) (s : LogSys) :
    Option Logger × LogSys :=
  match l? with
  | none => (none, s)
  | some l =>
    if level = Levels.Access then
      let count := inc64 l.sampleCount
      let l := { l with sampleCount := count }
      if l.sample = 0 ∨ count % l.sample ≠ 0 then (some l, s)
      else (some l, (queueMsg s ⟨level, pre, fm, v, lc, tee⟩).1)
    else if l.level < level ∨ level = Levels.Off then (some l, s)
    else (some l, (queueMsg s ⟨level, pre, fm, v, lc, tee⟩).1)

/-- The call-site the model supplies where the Go code calls
`runtime.Caller` internally. -/
def metaCaller : logCaller := ⟨"", 0⟩

/-- Go `LogNoTee`: `New(Levels.Info).log(level, prefix, format, v, false)` —
the no-tee submission path used by the delivery loop's own warning. -/
def LogNoTee (s : LogSys) (level : Level) (pre fm : String)
    (v : List String) : LogSys :=
  (Logger.log (some (New Levels.Info)) level pre fm v metaCaller false s).2

/-- Go `writeTee`: non-blocking offer of the rendered bytes to the tee
conduit; fails (returning an error, without blocking) when the bounded
channel is full. -/
def writeTee (s : LogSys) (msg : logMessage) : LogSys × Bool :=
  match s.logTee with
  | none => (s, false)
  | some (tcap, q) =>
    if q.length < tcap then
      ({ s with logTee := some (tcap, q ++ [String.mk msg.data]) }, true)
    else (s, false)

/-- Go `writeStd`: append exactly one `'\n'` and write the buffer to the
direct stream sink. -/
def writeStd (s : LogSys) (msg : logMessage) : LogSys × logMessage :=
  let msg := { msg with
    data := msg.data ++ ['\n']
    bcap := max msg.bcap (msg.data.length + 1) }
  ({ s with sinkOut := s.sinkOut ++ [msg.data] }, msg)

/-- Go `writeSyslog`: null-terminate and hand the bytes to the syslog
facility (external; modelled as appending to the sink output). -/
def writeSyslog (s : LogSys) (msg : logMessage) : LogSys × logMessage :=
  let msg := { msg with
    data := msg.data ++ [Char.ofNat 0]
    bcap := max msg.bcap (msg.data.length + 1) }
  ({ s with sinkOut := s.sinkOut ++ [msg.data] }, msg)

/-- Go `writeCustomSocket`: null-terminate and write `"<pri>"` followed by the
bytes to the custom socket; the priority is `LOG_USER | level`, which for
the syslog codes `3, 4, 6, 7 < 8` equals `8 + level`. -/
def writeCustomSocket (s : LogSys) (msg : logMessage) : LogSys × logMessage :=
  let msg := { msg with
    data := msg.data ++ [Char.ofNat 0]
    bcap := max msg.bcap (msg.data.length + 1) }
  ({ s with sinkOut :=
      s.sinkOut ++ [("<" ++ toString (8 + msg.level) ++ ">").toList ++ msg.data] },
   msg)

/-- One iteration of the `logWriter` delivery loop on the head pending
message: the optional best-effort tee offer (on failure, one
`LogNoTee(Levels.Warn, "[meta log]", ...)` warning plus an error-counter
increment, then proceed regardless), the sink write chosen by priority
(direct stream, else syslog when no custom socket, else custom socket),
then `freeMsg`.  Sink writes are modelled as succeeding (their error path
only increments the error counter). -/
def logWriterStep (s : LogSys) : LogSys :=
  match s.pending with
  | [] => s
  | msg :: rest =>
    let s := { s with pending := rest }
    let s :=
      if s.logTee ≠ none ∧ msg.le.tee then
        let (s', ok) := writeTee s msg
        if ok then s'
        else
          let s' := LogNoTee s' Levels.Warn "[meta log]"
            "log tee write failure: %w" ["log tee is full"]
          { s' with errCount := inc64 s'.errCount }
      else s
    let (s, msg) :=
      if s.stdhdl then writeStd s msg
      else if s.customSock = false then writeSyslog s msg
      else writeCustomSocket s msg
    (freeMsg s msg).1

/-- Go `setFormat`: the render mode chosen once at startup from the
`KENTIK_LOG_FMT` environment switch (`os.Getenv` yields `""` when the
variable is unset): `asJSON` only when the value is exactly `"json"`,
otherwise `asString`. -/
def setFormat (serFmt : String) : FmtMode :=
  if serFmt = "json" then .json else .text

/-- ASCII lower-casing (the case fold relevant to `"json"`/`"JSON"`). -/
def asciiLower (x : String) : String :=
  String.mk (x.toList.map fun c =>
    if 65 ≤ c.toNat ∧ c.toNat ≤ 90 then Char.ofNat (c.toNat + 32) else c)

/-- The render-mode choice as the specification words it (`setSendJSON` of
the repository's `logger_fmt` variant): structured when the switch is
unset, empty, or case-insensitively `"json"`; text otherwise.  Declared for
comparison with `setFormat`, the function `setup` actually installs. -/
def specFormatChoice (v : String) : FmtMode :=
  if v = "" ∨ asciiLower v = "json" then .json else .text

/-- Go `setup`: allocate the two channels at capacity `NumMessages`, release
every buffer of the fresh `msgArr` array into the free set (each has zero
data and capacity, so each `freeMsg` resets and pushes it), clear the sink
configuration, and install the render mode via `setFormat`. -/
def setup (serFmt : String) : LogSys :=
  { free := List.replicate NumMessages emptyMsg
    pending := []
    held := []
    logCount := 0
    dropCount := 0
    errCount := 0
    stdhdl := false
    customSock := false
    logTee := none
    sinkOut := []
    logNameString := ""
    format := setFormat serFmt
    now := 0 }

/-- Runs `n` policy-accepted submissions of the same entry, back to back, with
no consumer draining (each is one `queueMsg` call; policy-rejected calls
leave the state untouched and so need not appear). -/
def submitN (le : logEntry) : Nat → LogSys → LogSys
  | 0, s => s
  | n + 1, s => (queueMsg (submitN le n s) le).1

/-- The access-level branch of `Logger.log` in isolation: increment the
sampling counter (`uint64` wrap), then accept unless
`l.sample == 0 || count % l.sample != 0`. -/
def accessStep (l : Logger) : Logger × Bool :=
  let count := inc64 l.sampleCount
  ({ l with sampleCount := count },
   !(l.sample = 0 ∨ count % l.sample ≠ 0 : Bool))

/-- The logger after `j` access-level calls, starting from `New level`
with the sampling stride set to `sample` (`SetAccessLogSample`). -/
def loggerAfter (level : Level) (sample : Nat) : Nat → Logger
  | 0 => { New level with sample := sample }
  | j + 1 => (accessStep (loggerAfter level sample j)).1

/-- Whether the `j`-th access-level call (1-based) on such a logger passes
the sampling policy. -/
def acceptedAt (level : Level) (sample : Nat) (j : Nat) : Bool :=
  (accessStep (loggerAfter level sample (j - 1))).2

/-- The conserved-pool invariant: free-set size plus pending-set size plus
in-flight buffers equals the pool capacity. -/
def poolInv (s : LogSys) : Prop :=
  s.free.length + s.pending.length + s.held.length = NumMessages

/-- Small-step decomposition of every operation that moves a buffer
between the free set, the pending set and an owner, at the granularity at
which channel operations are atomic in the Go code.

* `acquire` / `acquireFail`: the attempt-counter increment and the
  non-blocking receive from `freeMessages` at the top of `queueMsg`.
* `enqueue` / `enqueueFail`: the non-blocking send of the rendered buffer
  to `messages` at the bottom of `queueMsg` (on the "should never happen"
  full branch the buffer is abandoned and the error counter incremented).
* `deliverTake`: the delivery loop receiving the next pending message.
* `release` / `releaseFail`: `freeMsg` on a held buffer (from the delivery
  loop, or from `queueMsg`'s render-error path); the overflow branch
  abandons the buffer and increments the error counter.

Steps that do not touch the pool (tee offers, sink writes, counter reads)
leave all three collections unchanged. -/
inductive Step : LogSys → LogSys → Prop
  | acquire (s : LogSys) (m : logMessage) (fr : List logMessage) :
      s.free = m :: fr →
      Step s { s with
        logCount := inc64 s.logCount
        free := fr
        held := s.held ++ [m] }
  | acquireFail (s : LogSys) :
      s.free = [] →
      Step s { s with
        logCount := inc64 s.logCount
        dropCount := inc64 s.dropCount }
  | enqueue (s : LogSys) (h₁ : List logMessage) (m : logMessage)
      (h₂ : List logMessage) (le : logEntry) :
      s.held = h₁ ++ m :: h₂ →
      s.pending.length < NumMessages →
      Step s { s with
        held := h₁ ++ h₂
        pending := s.pending ++ [render s m le] }
  | enqueueFail (s : LogSys) (h₁ : List logMessage) (m : logMessage)
      (h₂ : List logMessage) :
      s.held = h₁ ++ m :: h₂ →
      NumMessages ≤ s.pending.length →
      Step s { s with held := h₁ ++ h₂, errCount := inc64 s.errCount }
  | deliverTake (s : LogSys) (m : logMessage) (p : List logMessage) :
      s.pending = m :: p →
      Step s { s with pending := p, held := s.held ++ [m] }
  | release (s : LogSys) (h₁ : List logMessage) (m : logMessage)
      (h₂ : List logMessage) :
      s.held = h₁ ++ m :: h₂ →
      s.free.length < NumMessages →
      Step s { s with held := h₁ ++ h₂, free := s.free ++ [freeMsgClean m] }
  | releaseFail (s : LogSys) (h₁ : List logMessage) (m : logMessage)
      (h₂ : List logMessage) :
      s.held = h₁ ++ m :: h₂ →
      NumMessages ≤ s.free.length →
      Step s { s with held := h₁ ++ h₂, errCount := inc64 s.errCount }

/-- The entry submitted by the delivery loop through the no-tee path when
the tee conduit is full:
`LogNoTee(Levels.Warn, "[meta log]", "log tee write failure: %w", err)`. -/
def teeFullWarnEntry : logEntry :=
  { lvl := Levels.Warn
    pre := "[meta log]"
    fm := "log tee write failure: %w"
    fmtV := ["log tee is full"]
    lc := metaCaller
    tee := false }

/-- A representative caller-constructed entry used by concrete witnesses. -/
def sampleEntry : logEntry :=
  { lvl := Levels.Info
    pre := "[X] "
    fm := "%s items"
    fmtV := ["3"]
    lc := ⟨"device.go", 115⟩
    tee := true }

/-- A pooled buffer holding a rendered body, used by concrete witnesses. -/
def sampleMsg : logMessage :=
  { data := "body".toList, bcap := 4, level := 6, time := 0, le := sampleEntry }

/-- A reachable pool state in which every buffer is in flight (used as a
concrete instantiation of the conservation theorem). -/
def witPoolState : LogSys :=
  { setup "" with free := [], held := List.replicate NumMessages emptyMsg }

/-- A state whose tee conduit (capacity 1) is full while a tee-eligible
message is pending at a direct-stream sink (used as a concrete
instantiation of the tee-failure theorem). -/
def witTeeState : LogSys :=
  { setup "" with
    free := [emptyMsg]
    pending := [sampleMsg]
    stdhdl := true
    logTee := some (1, ["old"]) }

theorem trailingNLCount_eq_rtakeWhile (bs : List Char) :
    trailingNLCount bs = (bs.rtakeWhile isNL).length := by
  simp [trailingNLCount, List.rtakeWhile]

theorem eq_rdropWhile_append_rtakeWhile (bs : List Char) :
    bs = bs.rdropWhile isNL ++ bs.rtakeWhile isNL := by
  conv_lhs =>
    rw [← List.reverse_reverse bs,
      ← List.takeWhile_append_dropWhile (p := isNL) (l := bs.reverse),
      List.reverse_append]
  rfl

theorem trimNewLines_eq_rdropWhile (bs : List Char) :
    trimNewLines bs = bs.rdropWhile isNL := by
  unfold trimNewLines
  rw [trailingNLCount_eq_rtakeWhile]
  calc bs.take (bs.length - (bs.rtakeWhile isNL).length)
      = bs.rdrop ((bs.rtakeWhile isNL).length) := rfl
    _ = (bs.rdropWhile isNL ++ bs.rtakeWhile isNL).rdrop
        ((bs.rtakeWhile isNL).length) := by
        rw [← eq_rdropWhile_append_rtakeWhile]
    _ = bs.rdropWhile isNL := List.rdrop_append_length

theorem trailingNLCount_trimNewLines (bs : List Char) :
    trailingNLCount (trimNewLines bs) = 0 := by
  rw [trimNewLines_eq_rdropWhile, trailingNLCount_eq_rtakeWhile,
    List.length_eq_zero, List.rtakeWhile_eq_nil_iff]
  exact fun hl => List.rdropWhile_last_not isNL bs hl

theorem trailingNLCount_append_nl (x : List Char)
    (h : trailingNLCount x = 0) : trailingNLCount (x ++ ['\n']) = 1 := by
  rw [trailingNLCount_eq_rtakeWhile] at h ⊢
  rw [List.rtakeWhile_concat_pos (h := by simp [isNL])]
  simp [List.length_eq_zero.mp h]

theorem takeWhile_append_of_exists_neg {u v : List Char}
    (h : ∃ x ∈ u, isNL x = false) :
    (u ++ v).takeWhile isNL = u.takeWhile isNL := by
  induction u with
  | nil => obtain ⟨x, hx, _⟩ := h; cases hx
  | cons a u ih =>
    by_cases ha : isNL a
    · obtain ⟨x, hx, hxf⟩ := h
      rcases List.mem_cons.mp hx with rfl | hx
      · rw [ha] at hxf; cases hxf
      · simp only [List.cons_append, List.takeWhile_cons_of_pos ha,
          ih ⟨x, hx, hxf⟩]
    · simp only [List.cons_append, List.takeWhile_cons_of_neg ha]

theorem leadingNLCount_trimNewLines (bs : List Char)
    (h : ∃ c ∈ bs, c ≠ '\n') :
    leadingNLCount (trimNewLines bs) = leadingNLCount bs := by
  obtain ⟨c, hc, hcn⟩ := h
  have hcf : isNL c = false := by simp [isNL, hcn]
  have hmem : c ∈ bs.rdropWhile isNL := by
    have := eq_rdropWhile_append_rtakeWhile bs
    rw [this, List.mem_append] at hc
    rcases hc with hc | hc
    · exact hc
    · exact absurd (List.mem_rtakeWhile_imp hc) (by simp [hcf])
  rw [trimNewLines_eq_rdropWhile]
  unfold leadingNLCount
  conv_rhs => rw [eq_rdropWhile_append_rtakeWhile bs]
  rw [takeWhile_append_of_exists_neg ⟨c, hmem, hcf⟩]

/-- C5: in text mode, whatever the formatted body's trailing-terminator
count (0, 1, 3, ...), the formatter (`trimNewLines`, run by `render`)
strips all trailing terminators while preserving leading ones, and the
direct-stream writer (`writeStd`) re-adds exactly one, so the delivered
bytes end in exactly one line terminator. -/
theorem c5_trailing_terminator_normalization (bs : List Char) (s : LogSys)
    (m : logMessage) (le : logEntry) :
    trailingNLCount (trimNewLines bs) = 0 ∧
    trailingNLCount (trimNewLines bs ++ ['\n']) = 1 ∧
    ((∃ c ∈ bs, c ≠ '\n') →
      leadingNLCount (trimNewLines bs) = leadingNLCount bs) ∧
    (writeStd s (render s m le)).1.sinkOut
      = s.sinkOut ++ [(render s m le).data ++ ['\n']] ∧
    trailingNLCount ((render s m le).data ++ ['\n']) = 1 := by
  refine ⟨trailingNLCount_trimNewLines bs,
    trailingNLCount_append_nl _ (trailingNLCount_trimNewLines bs),
    leadingNLCount_trimNewLines bs, rfl, ?_⟩
  exact trailingNLCount_append_nl _ (trailingNLCount_trimNewLines _)

/-- C5 witness: a body with one leading and three trailing terminators. -/
theorem c5_witness :
    trailingNLCount (trimNewLines ['\n', 'a', '\n', '\n', '\n']) = 0 ∧
    trailingNLCount (trimNewLines ['\n', 'a', '\n', '\n', '\n'] ++ ['\n']) = 1 ∧
    leadingNLCount (trimNewLines ['\n', 'a', '\n', '\n', '\n'])
      = leadingNLCount ['\n', 'a', '\n', '\n', '\n'] := by
  obtain ⟨h1, h2, h3, _, _⟩ :=
    c5_trailing_terminator_normalization ['\n', 'a', '\n', '\n', '\n']
      (setup "") emptyMsg sampleEntry
  exact ⟨h1, h2, h3 ⟨'a', by decide, by decide⟩⟩

/-- C6 counterexample: with the switch unset/empty (`os.Getenv` yields
`""`) or set to `"JSON"`, `setFormat` — the choice `setup` actually
installs — selects text mode, while the claim (and `specFormatChoice`,
its transcription) selects structured mode. -/
theorem c6_counterexample :
    setFormat "" = FmtMode.text ∧ setFormat "JSON" = FmtMode.text ∧
    specFormatChoice "" = FmtMode.json ∧
    specFormatChoice "JSON" = FmtMode.json ∧
    (setup "").format ≠ specFormatChoice "" := by
  refine ⟨rfl, by decide, rfl, by decide, by decide⟩

/-- C6 (amended): the render mode is chosen once at startup by
`setFormat`, and structured mode is selected exactly when the
environment-style switch equals the literal lowercase string `"json"`;
unset, empty, and every other value (other casings included) select text
mode, and the chosen mode is the one `setup` installs for all messages. -/
theorem c6_format_switch (v : String) :
    (setFormat v = FmtMode.json ↔ v = "json") ∧
    (setup v).format = setFormat v := by
  constructor
  · unfold setFormat
    by_cases h : v = "json" <;> simp [h]
  · rfl

/-- C6 witness: the switch set to exactly `"json"` selects structured
mode and `setup` installs it. -/
theorem c6_witness :
    setFormat "json" = FmtMode.json ∧ (setup "json").format = FmtMode.json := by
  refine ⟨(c6_format_switch "json").1.mpr rfl, ?_⟩
  rw [(c6_format_switch "json").2]
  exact (c6_format_switch "json").1.mpr rfl

/-- C8: in structured mode, rendering an entry into the structured record
(`asJSON`) and parsing that record back recovers the level name
lower-cased, the prefix with surrounding spaces trimmed, and the formatted
message text verbatim (together with the serialized timestamp and the
call-site string). -/
theorem c8_structured_roundtrip (t : Nat) (le : logEntry) :
    decodeLES (asJSONRec t le) =
      some { time := tsJSON t
             level := (levelMap le.lvl).toLower
             pre := trimSpaces le.pre
             message := sprintfS le.fm le.fmtV
             caller := le.lc.callerString } := rfl

/-- C9: on every release, `freeMsg` puts the transformed buffer at the
back of the free set (when the free channel has room): a buffer whose
backing capacity exceeds the reclaim threshold (5120) re-enters with its
storage reallocated at exactly the bounded default capacity, any other
buffer re-enters cleared in place with its capacity retained. -/
theorem c9_release_reclaims (s : LogSys) (msg : logMessage)
    (h : s.free.length < NumMessages) :
    (freeMsg s msg).1.free = s.free ++ [freeMsgClean msg] ∧
    (reclaimThreshold < msg.bcap →
      (freeMsgClean msg).bcap = reclaimThreshold ∧
        (freeMsgClean msg).data = []) ∧
    (¬ reclaimThreshold < msg.bcap →
      (freeMsgClean msg).bcap = msg.bcap ∧ (freeMsgClean msg).data = []) := by
  refine ⟨?_, fun hc => ?_, fun hc => ?_⟩
  · simp [freeMsg, h]
  · simp [freeMsgClean, hc]
  · simp [freeMsgClean, hc]

/-- C9 witness: an oversized buffer (capacity 6000) is reallocated at
5120; a small one (capacity 600) keeps its capacity; both re-enter the
free set cleared. -/
theorem inc64_mod (k : Nat) : inc64 (k % U64) = (k + 1) % U64 := by
  unfold inc64
  rw [Nat.add_mod k 1 U64, Nat.mod_eq_of_lt (show (1 : Nat) < U64 by decide)]

theorem queueMsg_logCount (s : LogSys) (le : logEntry) :
    (queueMsg s le).1.logCount = inc64 s.logCount := by
  obtain ⟨f, p, hd, lC, dC, eC, std, cs, lt, so, lN, fm, now⟩ := s
  cases f with
  | nil => rfl
  | cons m fr =>
    simp only [queueMsg]
    split <;> rfl

theorem queueMsg_free_nil (s : LogSys) (le : logEntry) (h : s.free = []) :
    queueMsg s le = ({ s with
      logCount := inc64 s.logCount
      dropCount := inc64 s.dropCount }, none) := by
  obtain ⟨f, p, hd, lC, dC, eC, std, cs, lt, so, lN, fm, now⟩ := s
  subst h
  rfl

theorem queueMsg_free_cons (s : LogSys) (le : logEntry) (m : logMessage)
    (fr : List logMessage) (h : s.free = m :: fr)
    (hp : s.pending.length < NumMessages) :
    queueMsg s le = ({ s with
      logCount := inc64 s.logCount
      free := fr
      pending := s.pending ++ [render s m le] }, none) := by
  obtain ⟨f, p, hd, lC, dC, eC, std, cs, lt, so, lN, fm, now⟩ := s
  subst h
  simp only [queueMsg, render]
  rw [if_pos hp]

theorem c9_witness :
    (freeMsg witTeeState { sampleMsg with bcap := 6000 }).1.free
      = witTeeState.free ++ [freeMsgClean { sampleMsg with bcap := 6000 }] ∧
    (freeMsgClean { sampleMsg with bcap := 6000 }).bcap = reclaimThreshold ∧
    (freeMsgClean { sampleMsg with bcap := 600 }).bcap = 600 := by
  have h1 := c9_release_reclaims witTeeState { sampleMsg with bcap := 6000 }
    (by decide)
  have h2 := c9_release_reclaims witTeeState { sampleMsg with bcap := 600 }
    (by decide)
  exact ⟨h1.1, (h1.2.1 (by decide)).1, (h2.2.2 (by decide)).1⟩

/-- C2 counterexample: a policy-rejected submission (level `Info` against
an `Off`-threshold logger) returns with the attempt counter untouched, so
the producer-facing submit operation does not increment the attempt
counter before the level policy is applied. -/
theorem c2_counterexample :
    (Logger.log (some (New Levels.Off)) Levels.Info "p" "m" [] metaCaller
        true (setup "")).2.logCount
      ≠ (setup "").logCount + 1 := by
  decide

/-- C2 (amended): the level/sampling policy runs before the attempt
counter is touched — a policy-rejected submission returns with the state
entirely untouched (no attempt-counter increment, no buffer acquisition,
no drop-counter increment) — and the attempt counter is incremented as the
unconditional first step of `queueMsg`, the post-policy enqueue
operation. -/
theorem c2_attempt_counter (l : Logger) (lv : Level) (pre fm : String)
    (v : List String) (lc : logCaller) (tee : Bool) (s : LogSys) :
    (lv ≠ Levels.Access → l.level < lv ∨ lv = Levels.Off →
      Logger.log (some l) lv pre fm v lc tee s = (some l, s)) ∧
    (lv = Levels.Access →
      l.sample = 0 ∨ inc64 l.sampleCount % l.sample ≠ 0 →
      (Logger.log (some l) lv pre fm v lc tee s).2 = s) ∧
    (queueMsg s ⟨lv, pre, fm, v, lc, tee⟩).1.logCount = inc64 s.logCount := by
  refine ⟨fun hn hrej => ?_, fun ha hrej => ?_, queueMsg_logCount s _⟩
  · simp only [Logger.log]
    rw [if_neg hn, if_pos hrej]
  · subst ha
    simp only [Logger.log]
    rw [if_pos trivial, if_pos hrej]

/-- C2 witness: the rejected `Info`-against-`Off` call leaves the state
untouched, and a concrete `queueMsg` call bumps the attempt counter. -/
theorem c2_witness :
    Logger.log (some (New Levels.Off)) Levels.Info "p" "m" [] metaCaller
        true (setup "")
      = (some (New Levels.Off), setup "") ∧
    (queueMsg (setup "") ⟨Levels.Info, "[X] ", "%s items", ["3"],
        ⟨"device.go", 115⟩, true⟩).1.logCount = inc64 (setup "").logCount := by
  refine ⟨(c2_attempt_counter (New Levels.Off) Levels.Info "p" "m" []
      metaCaller true (setup "")).1 (by decide) (by decide), ?_⟩
  exact (c2_attempt_counter (New Levels.Off) Levels.Info "[X] " "%s items"
    ["3"] ⟨"device.go", 115⟩ true (setup "")).2.2

/-- C10: access-level submissions bypass the threshold comparison (the
result does not depend on the logger's level, so an `Off` threshold — as
on `OffLogger` — does not silence them), `New` sets the default sampling
stride 1, and under stride 1 an access-level submission on any non-nil
logger is accepted and enqueued. -/
theorem c10_access_not_silenced (l : Logger) (lv' : Level)
    (pre fm : String) (v : List String) (lc : logCaller) (tee : Bool)
    (s : LogSys) :
    OffLogger.sample = 1 ∧ (∀ lv : Level, (New lv).sample = 1) ∧
    (Logger.log (some { l with level := lv' }) Levels.Access pre fm v lc
        tee s).2
      = (Logger.log (some l) Levels.Access pre fm v lc tee s).2 ∧
    (l.sample = 1 → s.pending.length < NumMessages →
      ∀ (m : logMessage) (fr : List logMessage), s.free = m :: fr →
        (Logger.log (some l) Levels.Access pre fm v lc tee s).2.pending.length
            = s.pending.length + 1 ∧
        (Logger.log (some l) Levels.Access pre fm v lc tee s).2.logCount
            = inc64 s.logCount ∧
        (Logger.log (some l) Levels.Access pre fm v lc tee s).2.dropCount
            = s.dropCount) := by
  refine ⟨rfl, fun _ => rfl, ?_, fun h1 hp m fr hf => ?_⟩
  · simp only [Logger.log]
    rw [if_pos trivial, if_pos trivial]
    by_cases hc : l.sample = 0 ∨ inc64 l.sampleCount % l.sample ≠ 0
    · rw [if_pos hc, if_pos hc]
    · rw [if_neg hc, if_neg hc]
  · have hacc : (Logger.log (some l) Levels.Access pre fm v lc tee s).2
        = (queueMsg s ⟨Levels.Access, pre, fm, v, lc, tee⟩).1 := by
      simp only [Logger.log]
      rw [if_pos trivial, if_neg (by simp [h1, Nat.mod_one])]
    rw [hacc, queueMsg_free_cons s _ m fr hf hp]
    simp

/-- C10 witness: an access-level call on `OffLogger` over a small state
with one free buffer is accepted and enqueued. -/
theorem c10_witness :
    (Logger.log (some OffLogger) Levels.Access "[X] " "%s items" ["3"]
        ⟨"device.go", 115⟩ true witTeeState).2.pending.length
      = witTeeState.pending.length + 1 ∧
    (Logger.log (some OffLogger) Levels.Access "[X] " "%s items" ["3"]
        ⟨"device.go", 115⟩ true witTeeState).2.logCount
      = inc64 witTeeState.logCount := by
  have h := (c10_access_not_silenced OffLogger Levels.Off "[X] " "%s items"
    ["3"] ⟨"device.go", 115⟩ true witTeeState).2.2.2 rfl (by decide)
    emptyMsg [] rfl
  exact ⟨h.1, h.2.1⟩

theorem submitN_step_lt (le : logEntry) (e : String) (n : Nat)
    (hf : (submitN le n (setup e)).free
      = List.replicate (NumMessages - n) emptyMsg)
    (hp : (submitN le n (setup e)).pending.length = n)
    (hl : (submitN le n (setup e)).logCount = n % U64)
    (hd : (submitN le n (setup e)).dropCount = (n - NumMessages) % U64)
    (hn : n < NumMessages) :
    (submitN le (n + 1) (setup e)).free
        = List.replicate (NumMessages - min (n + 1) NumMessages) emptyMsg ∧
    (submitN le (n + 1) (setup e)).pending.length
        = min (n + 1) NumMessages ∧
    (submitN le (n + 1) (setup e)).logCount = (n + 1) % U64 ∧
    (submitN le (n + 1) (setup e)).dropCount
        = (n + 1 - NumMessages) % U64 := by
  have hfree : (submitN le n (setup e)).free
      = emptyMsg :: List.replicate (NumMessages - n - 1) emptyMsg := by
    rw [hf, show NumMessages - n = (NumMessages - n - 1) + 1 by omega,
      List.replicate_succ, Nat.add_sub_cancel]
  have hq := queueMsg_free_cons (submitN le n (setup e)) le emptyMsg
    (List.replicate (NumMessages - n - 1) emptyMsg) hfree
    (by rw [hp]; omega)
  have hS : submitN le (n + 1) (setup e)
      = (queueMsg (submitN le n (setup e)) le).1 := rfl
  rw [hq] at hS
  refine ⟨?_, ?_, ?_, ?_⟩
  · rw [hS]
    rw [show NumMessages - min (n + 1) NumMessages = NumMessages - n - 1
      by omega]
  · rw [hS]
    simp only [List.length_append, List.length_cons, List.length_nil, hp]
    omega
  · rw [hS]
    simp only [hl, inc64_mod]
  · rw [hS]
    simp only [hd]
    rw [show n - NumMessages = n + 1 - NumMessages by omega]

theorem submitN_step_ge (le : logEntry) (e : String) (n : Nat)
    (hf : (submitN le n (setup e)).free
      = List.replicate (NumMessages - NumMessages) emptyMsg)
    (hp : (submitN le n (setup e)).pending.length = NumMessages)
    (hl : (submitN le n (setup e)).logCount = n % U64)
    (hd : (submitN le n (setup e)).dropCount = (n - NumMessages) % U64)
    (hn : NumMessages ≤ n) :
    (submitN le (n + 1) (setup e)).free
        = List.replicate (NumMessages - min (n + 1) NumMessages) emptyMsg ∧
    (submitN le (n + 1) (setup e)).pending.length
        = min (n + 1) NumMessages ∧
    (submitN le (n + 1) (setup e)).logCount = (n + 1) % U64 ∧
    (submitN le (n + 1) (setup e)).dropCount
        = (n + 1 - NumMessages) % U64 := by
  have hfree : (submitN le n (setup e)).free = [] := by
    rw [hf, Nat.sub_self, List.replicate_zero]
  have hq := queueMsg_free_nil (submitN le n (setup e)) le hfree
  have hS : submitN le (n + 1) (setup e)
      = (queueMsg (submitN le n (setup e)) le).1 := rfl
  rw [hq] at hS
  refine ⟨?_, ?_, ?_, ?_⟩
  · rw [hS]
    simp only [hfree]
    rw [show NumMessages - min (n + 1) NumMessages = 0 by omega,
      List.replicate_zero]
  · rw [hS]
    simp only [hp]
    omega
  · rw [hS]
    simp only [hl, inc64_mod]
  · rw [hS]
    simp only [hd, inc64_mod]
    rw [show n - NumMessages + 1 = n + 1 - NumMessages by omega]

theorem submitN_closed_form (le : logEntry) (e : String) (n : Nat) :
    (submitN le n (setup e)).free
        = List.replicate (NumMessages - min n NumMessages) emptyMsg ∧
    (submitN le n (setup e)).pending.length = min n NumMessages ∧
    (submitN le n (setup e)).logCount = n % U64 ∧
    (submitN le n (setup e)).dropCount = (n - NumMessages) % U64 := by
  induction n with
  | zero =>
    refine ⟨?_, ?_, ?_, ?_⟩
    · rw [show NumMessages - min 0 NumMessages = NumMessages by omega]
      rfl
    · rw [show min 0 NumMessages = 0 by omega]
      rfl
    · rfl
    · rw [show 0 - NumMessages = 0 by omega]
      rfl
  | succ n ih =>
    obtain ⟨hf, hp, hl, hd⟩ := ih
    by_cases hn : n < NumMessages
    · rw [show min n NumMessages = n by omega] at hf hp
      exact submitN_step_lt le e n hf hp hl hd hn
    · rw [show min n NumMessages = NumMessages by omega] at hf hp
      exact submitN_step_ge le e n hf hp hl hd (by omega)

/-- C3: with `n` policy-accepted submits and no consumer draining, every
accepted submit that finds the free set empty increments the drop counter
and returns immediately (the non-blocking `select` default branch, with
no error), and once `n` reaches the pool capacity the capacity-drop
counter equals `n` minus the pool capacity. -/
theorem c3_capacity_drops (le : logEntry) (e : String) (n : Nat)
    (h1 : NumMessages ≤ n) (h2 : n < U64) :
    (submitN le n (setup e)).dropCount = n - NumMessages ∧
    (∀ s : LogSys, s.free = [] →
      queueMsg s le = ({ s with
        logCount := inc64 s.logCount
        dropCount := inc64 s.dropCount }, none)) := by
  refine ⟨?_, fun s hfr => queueMsg_free_nil s le hfr⟩
  rw [(submitN_closed_form le e n).2.2.2, Nat.mod_eq_of_lt (by omega)]

/-- C3 witness: one submit beyond the pool capacity yields exactly one
capacity drop, and a concrete empty-free-set state drops immediately. -/
theorem c3_witness :
    (submitN sampleEntry (NumMessages + 1) (setup "")).dropCount
      = NumMessages + 1 - NumMessages ∧
    queueMsg witPoolState sampleEntry = ({ witPoolState with
      logCount := inc64 witPoolState.logCount
      dropCount := inc64 witPoolState.dropCount }, none) := by
  have h := c3_capacity_drops sampleEntry "" (NumMessages + 1)
    (by omega) (by decide)
  exact ⟨h.1, h.2 witPoolState rfl⟩

/-- C1: the buffer pool conserves its capacity: the invariant
"free-set size + pending-set size + in-flight count = `NumMessages`"
holds in the state `setup` establishes and is preserved by every
pool-touching step of the enqueue path, the delivery loop, and release —
no step leaks a buffer or counts one twice (the branches that would leak,
`ErrLogFullBuf` and `ErrFreeMessageOverflow`, are unreachable while the
invariant holds). -/
theorem c1_pool_conservation :
    (∀ e : String, poolInv (setup e)) ∧
    ∀ s s' : LogSys, poolInv s → Step s s' → poolInv s' := by
  constructor
  · intro e
    simp [poolInv, setup]
  · intro s s' hinv hstep
    cases hstep with
    | acquire m fr hfr =>
      simp only [poolInv] at hinv ⊢
      rw [hfr] at hinv
      simp only [List.length_cons, List.length_append,
        List.length_nil] at hinv ⊢
      omega
    | acquireFail hfr =>
      exact hinv
    | enqueue h₁ m h₂ le hh hlt =>
      simp only [poolInv] at hinv ⊢
      rw [hh] at hinv
      simp only [List.length_append, List.length_cons,
        List.length_nil] at hinv ⊢
      omega
    | enqueueFail h₁ m h₂ hh hfull =>
      simp only [poolInv] at hinv ⊢
      rw [hh] at hinv
      simp only [List.length_append, List.length_cons,
        List.length_nil] at hinv ⊢
      omega
    | deliverTake m p hpend =>
      simp only [poolInv] at hinv ⊢
      rw [hpend] at hinv
      simp only [List.length_cons, List.length_append,
        List.length_nil] at hinv ⊢
      omega
    | release h₁ m h₂ hh hlt =>
      simp only [poolInv] at hinv ⊢
      rw [hh] at hinv
      simp only [List.length_append, List.length_cons,
        List.length_nil] at hinv ⊢
      omega
    | releaseFail h₁ m h₂ hh hfull =>
      simp only [poolInv] at hinv ⊢
      rw [hh] at hinv
      simp only [List.length_append, List.length_cons,
        List.length_nil] at hinv ⊢
      omega

/-- C1 witness: the invariant holds after a concrete drop step from a
reachable all-in-flight state. -/
theorem c1_witness :
    poolInv { witPoolState with
      logCount := inc64 witPoolState.logCount
      dropCount := inc64 witPoolState.dropCount } := by
  exact c1_pool_conservation.2 witPoolState _
    (by simp [poolInv, witPoolState, setup])
    (Step.acquireFail witPoolState rfl)

theorem loggerAfter_sample (lv : Level) (K : Nat) (j : Nat) :
    (loggerAfter lv K j).sample = K := by
  induction j with
  | zero => rfl
  | succ j ih => simp only [loggerAfter, accessStep, ih]

theorem loggerAfter_sampleCount (lv : Level) (K : Nat) (j : Nat) :
    (loggerAfter lv K j).sampleCount = j % U64 := by
  induction j with
  | zero => rfl
  | succ j ih => simp only [loggerAfter, accessStep, ih, inc64_mod]

theorem acceptedAt_iff (lv : Level) (K : Nat) (j : Nat) (hj : 1 ≤ j) :
    acceptedAt lv K j = true ↔ K ≠ 0 ∧ (j % U64) % K = 0 := by
  unfold acceptedAt accessStep
  rw [loggerAfter_sample, loggerAfter_sampleCount, inc64_mod,
    show j - 1 + 1 = j by omega]
  simp [not_or]

theorem filter_mod_eq_zero_Ioc (K m : Nat) (hK : 1 ≤ K) :
    (Finset.Ioc m (m + K)).filter (fun j => j % K = 0)
      = {K * (m / K + 1)} := by
  ext j
  simp only [Finset.mem_filter, Finset.mem_Ioc, Finset.mem_singleton]
  constructor
  · rintro ⟨⟨hmj, hjm⟩, hmod⟩
    obtain ⟨t, rfl⟩ := Nat.dvd_of_mod_eq_zero hmod
    have ht : 1 ≤ t := by
      rcases Nat.eq_zero_or_pos t with rfl | ht
      · simp at hmj
      · exact ht
    have h1 : m / K < t := by
      rw [Nat.div_lt_iff_lt_mul (by omega)]
      calc m < K * t := hmj
        _ = t * K := Nat.mul_comm K t
    have h2 : t ≤ m / K + 1 := by
      have hsub : (t - 1) * K ≤ m := by
        rw [Nat.sub_mul, Nat.one_mul, Nat.mul_comm t K]
        omega
      have := (Nat.le_div_iff_mul_le (k := K) (by omega)).mpr hsub
      omega
    have : t = m / K + 1 := by omega
    rw [this]
  · rintro rfl
    have hdm := Nat.div_add_mod m K
    have hml : m % K < K := Nat.mod_lt m (by omega)
    have hexp : K * (m / K + 1) = K * (m / K) + K := by ring
    refine ⟨⟨?_, ?_⟩, ?_⟩
    · rw [hexp]
      omega
    · rw [hexp]
      omega
    · simp [Nat.mul_mod_right]

/-- C4: access-level sampling on a logger created by `New` with
`SetAccessLogSample` stride `K`: stride 0 rejects every access-level
call, stride 1 accepts every access-level call, and for `K ≥ 1` exactly
one of every `K` consecutive access-level calls passes the policy (the
call counter is a 64-bit wrap-around counter, so windows are taken below
the wrap bound, which covers every reachable call index). -/
theorem c4_access_sampling (lv : Level) (K m : Nat) :
    (∀ j : Nat, acceptedAt lv 0 j = false) ∧
    (∀ j : Nat, acceptedAt lv 1 j = true) ∧
    (1 ≤ K → m + K < U64 →
      ((Finset.Ioc m (m + K)).filter
        (fun j => acceptedAt lv K j = true)).card = 1) := by
  refine ⟨fun j => ?_, fun j => ?_, fun hK hlt => ?_⟩
  · unfold acceptedAt accessStep
    rw [loggerAfter_sample]
    simp
  · unfold acceptedAt accessStep
    rw [loggerAfter_sample]
    simp [Nat.mod_one]
  · have hfe : (Finset.Ioc m (m + K)).filter
        (fun j => acceptedAt lv K j = true)
        = (Finset.Ioc m (m + K)).filter (fun j => j % K = 0) := by
      apply Finset.filter_congr
      intro j hj
      simp only [Finset.mem_Ioc] at hj
      rw [acceptedAt_iff lv K j (by omega),
        Nat.mod_eq_of_lt (show j < U64 by omega)]
      constructor
      · exact fun h => h.2
      · exact fun h => ⟨by omega, h⟩
    rw [hfe, filter_mod_eq_zero_Ioc K m hK, Finset.card_singleton]

/-- C4 witness: stride 0 rejects, stride 1 accepts, and stride 3 accepts
exactly one of the three consecutive calls 5, 6, 7. -/
theorem c4_witness :
    acceptedAt Levels.Debug 0 5 = false ∧
    acceptedAt Levels.Debug 1 5 = true ∧
    ((Finset.Ioc 4 (4 + 3)).filter
      (fun j => acceptedAt Levels.Debug 3 j = true)).card = 1 := by
  obtain ⟨h0, h1, h3⟩ := c4_access_sampling Levels.Debug 3 4
  exact ⟨(c4_access_sampling Levels.Debug 3 4).1 5, h1 5,
    h3 (by omega) (by decide)⟩

/-- C7: when the delivery loop offers a tee-eligible message to a full
tee conduit, the offer fails without blocking and without touching the
conduit, one warning entry (tee-ineligible, level `Warn`) is submitted
through the no-tee path and enqueued, the error counter is incremented,
and the message is still written to the configured direct-stream sink and
its buffer released back to the free set. -/
theorem c7_tee_full_nonblocking (s : LogSys) (msg : logMessage)
    (rest : List logMessage) (tcap : Nat) (q : List String)
    (fm : logMessage) (fr : List logMessage)
    (hp : s.pending = msg :: rest)
    (ht : s.logTee = some (tcap, q))
    (htee : msg.le.tee = true)
    (hfull : ¬ q.length < tcap)
    (hfree : s.free = fm :: fr)
    (hfr : fr.length < NumMessages)
    (hrest : rest.length < NumMessages)
    (hstd : s.stdhdl = true) :
    (logWriterStep s).logTee = s.logTee ∧
    (logWriterStep s).errCount = inc64 s.errCount ∧
    (logWriterStep s).sinkOut = s.sinkOut ++ [msg.data ++ ['\n']] ∧
    (logWriterStep s).pending = rest ++ [render s fm teeFullWarnEntry] ∧
    teeFullWarnEntry.tee = false ∧
    teeFullWarnEntry.lvl = Levels.Warn ∧
    (logWriterStep s).free = fr ++ [freeMsgClean { msg with
        data := msg.data ++ ['\n']
        bcap := max msg.bcap (msg.data.length + 1) }] ∧
    (logWriterStep s).logCount = inc64 s.logCount ∧
    (logWriterStep s).dropCount = s.dropCount := by
  obtain ⟨f, p, hd, lC, dC, eC, std, cs, lt, so, lN, fmt, now⟩ := s
  subst hp ht hfree hstd
  refine ⟨?_, ?_, ?_, ?_, rfl, rfl, ?_, ?_, ?_⟩ <;>
    simp [logWriterStep, writeTee, LogNoTee, Logger.log, queueMsg, writeStd,
      freeMsg, render, htee, hfull, hfr, hrest, Levels.Warn, Levels.Access,
      Levels.Off, Levels.Info, New, teeFullWarnEntry, metaCaller]

/-- C7 witness: a concrete full tee (capacity 1, one queued string) with
one tee-eligible pending message at a direct-stream sink. -/
theorem c7_witness :
    (logWriterStep witTeeState).logTee = witTeeState.logTee ∧
    (logWriterStep witTeeState).errCount = inc64 witTeeState.errCount ∧
    (logWriterStep witTeeState).sinkOut
      = witTeeState.sinkOut ++ [sampleMsg.data ++ ['\n']] ∧
    (logWriterStep witTeeState).pending
      = [] ++ [render witTeeState emptyMsg teeFullWarnEntry] := by
  obtain ⟨h1, h2, h3, h4, _, _, _, _, _⟩ :=
    c7_tee_full_nonblocking witTeeState sampleMsg [] 1 ["old"] emptyMsg []
      rfl rfl rfl (by decide) rfl (by decide) (by decide) rfl
  exact ⟨h1, h2, h3, h4⟩

end Golog
